import Mathlib

/-!
Verification development for the `c-sharp-operations` code-generator plugin
(`packages/plugins/c-sharp/c-sharp-operations/src/index.ts` and `visitor.ts`).

The visitor walks GraphQL operation/fragment/input/enum definitions against a
schema and emits C# source text.  The embedding below translates the visitor's
functions into Lean.  Machine-level concerns are modelled as follows:

* a JavaScript `throw new Error(msg)` becomes `Except.error (JSErr.thrown msg)`;
* a runtime `TypeError` caused by a property access on `undefined` becomes
  `Except.error (JSErr.typeError msg)`;
* the unbounded recursion of the selection compiler (which can diverge on
  cyclic fragment spreads) is given a `fuel : Nat` argument; exhausted fuel
  becomes `Except.error JSErr.stackOverflow`, modelling the engine's stack.

Utilities that live in out-of-scope collaborator packages
(`@graphql-codegen/c-sharp-common`, `@graphql-codegen/visitor-plugin-common`,
`change-case-all`) are modelled from the spec and marked as such in their
doc comments.
-/

/-- Error outcome of a generation run. -/
inductive JSErr where
  | thrown (msg : String)
  | typeError (msg : String)
  | stackOverflow
deriving DecidableEq, Repr

/-- GraphQL type reference: named base type, list wrapper, non-null wrapper. -/
inductive TypeNode where
  | named (name : String)
  | list (t : TypeNode)
  | nonNull (t : TypeNode)
deriving DecidableEq, Repr

/-- Kind of a schema type as distinguished by the `isScalarType` /
`isInputObjectType` / `isEnumType` predicates of the schema graph. -/
inductive SchemaTypeKind where
  | scalar
  | inputObject
  | enum
  | object
deriving DecidableEq, Repr

/-- One entry of the schema's name-to-type map (`this._schema.getType`). -/
structure SchemaType where
  name : String
  kind : SchemaTypeKind
deriving DecidableEq, Repr

/-- List wrapper descriptor with per-layer requiredness, as produced by the
collaborator's `getListTypeField`. -/
inductive ListTypeField where
  | mk (required : Bool) (type : Option ListTypeField)

/-- Base component of a resolved value-type descriptor. -/
structure CSharpBaseField where
  type : String
  required : Bool
  valueType : Bool
deriving DecidableEq, Repr

/-- Value type descriptor (`CSharpFieldType` of `c-sharp-common`): base type
plus an optional list wrapper. -/
structure CSharpFieldType where
  baseType : CSharpBaseField
  listType : Option ListTypeField

/-- Modelled from the spec: base-name extraction for a type reference (§4.1);
strips every list and non-null wrapper down to the named base type
(collaborator `getBaseTypeNode`). -/
def getBaseTypeNode : TypeNode → String
  | .named n => n
  | .list t => getBaseTypeNode t
  | .nonNull t => getBaseTypeNode t

/-- Modelled from the spec: the list-wrapper view of a type reference (§4.1
rule 5 and §3): one layer per list wrapper, each layer's requiredness being the
inverse of nullability at that layer, read independently of the base element
(collaborator `getListTypeField`). -/
def getListTypeField : TypeNode → Option ListTypeField
  | .list t => some (.mk false (getListTypeField t))
  | .nonNull (.list t) => some (.mk true (getListTypeField t))
  | .nonNull t => getListTypeField t
  | .named _ => none

/-- Modelled from the spec: the innermost type-reference layer under all list
wrappers (§4.1 rule 5); the base element is required exactly when this layer is
a non-null wrapper (collaborator `getListInnerTypeNode`). -/
def getListInnerTypeNode : TypeNode → TypeNode
  | .list t => getListInnerTypeNode t
  | .nonNull (.list t) => getListInnerTypeNode t
  | t => t

/-- Base-element requiredness of a type reference: whether the innermost layer
is a non-null wrapper (`getListInnerTypeNode(typeNode).kind === Kind.NON_NULL_TYPE`). -/
def schemaRequired (t : TypeNode) : Bool :=
  match getListInnerTypeNode t with
  | .nonNull _ => true
  | _ => false

/-- Modelled from the spec: list depth of a list-wrapper descriptor (§3,
invariant list-depth ≥ 0; collaborator `getListTypeDepth`). -/
def getListTypeDepth : Option ListTypeField → Nat
  | some (.mk _ t) => getListTypeDepth t + 1
  | none => 0

/-- Modelled from the spec: the value- vs reference-type classification table
behind each native type mapping (§6); a fixed list of target-language value
types consulted by name (collaborator `isValueType`). -/
def csharpValueTypes : List String :=
  ["bool", "byte", "sbyte", "char", "decimal", "double", "float", "int", "uint",
   "nint", "nuint", "long", "ulong", "short", "ushort", "DateTime"]

/-- Value-type flag declared for a native type name. -/
def isValueType (t : String) : Bool := csharpValueTypes.contains t

/-- Rendered base type name: the nullable-value-type marker is appended when
the base is a value type that is not required (`CSharpFieldType.innerTypeName`). -/
def innerTypeName (ft : CSharpFieldType) : String :=
  ft.baseType.type ++ (if ft.baseType.valueType && !ft.baseType.required then "?" else "")

/-- Modelled from the spec: list wrapping of a rendered type, one generic
wrapper application per list layer (collaborator `wrapFieldType`). -/
def wrapList (ft : CSharpFieldType) (lw : String) : ListTypeField → String
  | .mk _ none => lw ++ "<" ++ innerTypeName ft ++ ">"
  | .mk _ (some inner) => lw ++ "<" ++ wrapList ft lw inner ++ ">"

/-- Wraps a resolved field type in the given list wrapper type, layer by layer. -/
def wrapFieldType (ft : CSharpFieldType) (l : Option ListTypeField) (lw : String) : String :=
  match l with
  | none => innerTypeName ft
  | some x => wrapList ft lw x

/-- Modelled from the spec: the out-of-scope naming-case conversion utility
(§1), assumed a pure function; modelled as upper-casing the first character. -/
def pascalCase (s : String) : String :=
  match s.data with
  | [] => ""
  | c :: cs => String.mk (Char.toUpper c :: cs)

/-- Modelled from the spec: reserved words of the target language fed to the
reserved-word escape (§4.3). -/
def csharpKeywords : List String :=
  ["abstract", "bool", "break", "byte", "case", "class", "double", "enum",
   "event", "float", "int", "long", "new", "null", "object", "operator", "out",
   "override", "params", "private", "public", "return", "string", "this", "void"]

/-- Modelled from the spec: the reserved-word/invalid-identifier escape (§4.3);
reserved names receive the verbatim-identifier marker (collaborator
`convertSafeName`). -/
def convertSafeName (n : String) : String :=
  if csharpKeywords.contains n then "@" ++ n else n

/-- Modelled from the spec: name conversion through the configured naming
convention (§4.3), pascal-case by default (base visitor `convertName`). -/
def convertName (s : String) : String := pascalCase s

/-- Splits a string into its lines (separator-preserving building block of the
modelled indentation emitter). -/
def splitLinesAux : List Char → List Char → List String
  | [], acc => [String.mk acc.reverse]
  | c :: rest, acc =>
    if c = '\n' then String.mk acc.reverse :: splitLinesAux rest []
    else splitLinesAux rest (c :: acc)

/-- Lines of a string, split at every newline. -/
def splitLines (s : String) : List String := splitLinesAux s.data []

/-- Indentation unit repeated `count` times (two spaces per level). -/
def indentPrefix (count : Nat) : String := String.join (List.replicate count "  ")

/-- Modelled from the spec: the out-of-scope indentation emitter (§1);
prefixes every line of the text with two spaces per level (collaborator
`indentMultiline`). -/
def indentMultiline (s : String) (count : Nat) : String :=
  indentPrefix count ++ String.intercalate ("\n" ++ indentPrefix count) (splitLines s)

/-- Modelled from the spec: the generic declaration-block text emitter (§1,
out of scope); renders access modifier, declaration kind, name, optional
implements list, and a braced block body (collaborator
`CSharpDeclarationBlock`). -/
def declarationBlock (access kind name : String) (impl : List String) (block : String) : String :=
  (if access = "" then "" else access ++ " ") ++ kind ++ " " ++ name ++
    (if impl.isEmpty then "" else " : " ++ String.intercalate ", " impl) ++
    " \x7b\n" ++ block ++ "\n\x7d"

/-- Lower-casing of a type name (`s.name.value.toLowerCase()`), written over
the character list so that it evaluates by kernel reduction. -/
def toLowerStr (s : String) : String := String.mk (s.data.map Char.toLower)

/- ### Document AST -/

mutual
/-- A selected field: name plus optional nested selection set (leaf when absent). -/
inductive FieldNode where
  | mk (name : String) (selectionSet : Option (List Selection))

/-- One selection inside a selection set. -/
inductive Selection where
  | field (f : FieldNode)
  | fragmentSpread (name : String)
  | inlineFragment
end

/-- Name of a selected field. -/
def FieldNode.name : FieldNode → String
  | .mk n _ => n

/-- Nested selection set of a selected field. -/
def FieldNode.selectionSet : FieldNode → Option (List Selection)
  | .mk _ s => s

/-- The `kind` tag of a selection node, as interpolated into error messages. -/
def selKindName : Selection → String
  | .field _ => "Field"
  | .fragmentSpread _ => "FragmentSpread"
  | .inlineFragment => "InlineFragment"

/-- A field of an object type definition in the schema AST. -/
structure FieldDef where
  name : String
  type : TypeNode

/-- An object type definition of the schema AST
(`Kind.OBJECT_TYPE_DEFINITION` entries of `this._schemaAST.definitions`). -/
structure ObjectTypeDef where
  name : String
  fields : List FieldDef

/-- A loaded fragment (`this._fragments` entry): name, type condition and the
fragment definition's own selections. -/
structure FragmentDef where
  name : String
  typeCondition : String
  selections : List Selection

/-- One variable definition of an operation. -/
structure VariableDefinition where
  name : String
  type : TypeNode

/-- An operation definition: optional name, operation kind (`"query"`,
`"mutation"` or `"subscription"` — kept as the raw string the source switches
on), variables and root selection set. -/
structure OperationDefinitionNode where
  name : Option String
  operation : String
  variableDefinitions : List VariableDefinition
  selectionSet : List Selection

/-- An input object type definition: name and its input value definitions. -/
structure InputObjectTypeDef where
  name : String
  fields : List (String × TypeNode)

/-- An enum type definition: name and value names. -/
structure EnumTypeDef where
  name : String
  values : List String

/-- The `httpClientConfig` configuration block.  Absent sub-fields are the
empty string, matching JavaScript falsiness checks on them. -/
structure HttpClientConfig where
  prodEndpoint : String
  devEndpoint : String
  useDevIf : String
deriving DecidableEq, Repr

/-- State of the visitor relevant to the embedded functions: the schema type
map, the schema-AST object definitions, the loaded fragments, the scalar
mapping table, and the configuration read by the generators.  The
`typesafeOperation` flag is threaded separately into the three handlers that
read it.  `printDoc` stands for the out-of-scope document re-serialization of
the base visitor (spec §4.4), modelled as a supplied pure function. -/
structure VisitorEnv where
  schemaTypes : List SchemaType
  schemaObjects : List ObjectTypeDef
  fragments : List FragmentDef
  scalars : String → Option String
  operationsClassName : String
  namespaceName : String
  httpClientConfig : Option HttpClientConfig
  documentModeExternal : Bool
  printDoc : OperationDefinitionNode → String

/- ### Type resolver (`resolveFieldType`, visitor.ts lines 405–472) -/

/-- Embedding of `resolveFieldType`'s `result` computation: resolves a type
reference against the schema into a value-type descriptor by the
scalar/input/enum/object priority order.  An unknown base type name makes the
final branch read `.name` of an `undefined` schema type. -/
def resolveFieldTypeBase (env : VisitorEnv) (typeNode : TypeNode) :
    Except JSErr CSharpFieldType :=
  let innerName := getBaseTypeNode typeNode
  let schemaType := env.schemaTypes.find? (fun t => t.name == innerName)
  let listType := getListTypeField typeNode
  let required := schemaRequired typeNode
  match schemaType with
  | some st =>
    match st.kind with
    | .scalar =>
      match env.scalars st.name with
      | some bt =>
        if bt = "" then
          .ok ⟨⟨"object", required, false⟩, listType⟩
        else
          .ok ⟨⟨bt, required, isValueType bt⟩, listType⟩
      | none => .ok ⟨⟨"object", required, false⟩, listType⟩
    | .inputObject => .ok ⟨⟨convertName st.name, required, false⟩, listType⟩
    | .enum => .ok ⟨⟨convertName st.name, required, true⟩, listType⟩
    | .object => .ok ⟨⟨st.name, required, false⟩, listType⟩
  | none => .error (.typeError "Cannot read properties of undefined (reading name)")

/-- Embedding of `resolveFieldType`'s tail: when the default-value flag is set,
`(result.listType || result.baseType).required = false` clears the requiredness
of the outermost component only. -/
def resolveFieldType (env : VisitorEnv) (typeNode : TypeNode) (hasDefaultValue : Bool) :
    Except JSErr CSharpFieldType :=
  match resolveFieldTypeBase env typeNode with
  | .error e => .error e
  | .ok r =>
    if hasDefaultValue then
      match r.listType with
      | some (.mk _ inner) => .ok { r with listType := some (.mk false inner) }
      | none => .ok { r with baseType := { r.baseType with required := false } }
    else
      .ok r

/- ### Selection compiler (`_getFieldDefinition` / `_getFragmentSpreadDefinition`,
visitor.ts lines 474–581) -/

/-- Property text emitted for a leaf field (no nested selection): serialization
tag carries the wire name, the in-class name is the pascal-cased, escaped field
name. -/
def leafFieldText (name : String) (rt : CSharpFieldType) : String :=
  indentMultiline
    ("[JsonProperty(\"" ++ name ++ "\")]\npublic " ++ wrapFieldType rt rt.listType "List" ++
      " " ++ convertSafeName (pascalCase name) ++ " \x7b get; set; \x7d\n") 1

/-- Property text emitted for a field whose selection set is exactly one
fragment spread: the fragment's own class name is reused as the declared type,
wrapped in a single `List<...>` and with an `s` appended to the property name
when the field's resolved type carries a list wrapper. -/
def soleSpreadFieldText (name : String) (rt : CSharpFieldType) (fragName : String) : String :=
  let tn0 := convertName fragName
  let tn := if rt.listType.isSome then "List<" ++ tn0 ++ ">" else tn0
  let vn := if rt.listType.isSome then tn0 ++ "s" else tn0
  indentMultiline
    ("[JsonProperty(\"" ++ name ++ "\")]\npublic " ++ tn ++ " " ++ vn ++
      " \x7b get; set; \x7d\n") 1

/-- Synthetic nested class name for a composite field: pascal-cased field name,
trailing `s` stripped when the field is list-valued, plus the fixed `Result`
suffix, passed through the reserved-name escape. -/
def compositeClassName (name : String) (rt : CSharpFieldType) : String :=
  let b0 := pascalCase name
  let b1 := if rt.listType.isSome && b0.endsWith "s" then b0.dropRight 1 else b0
  convertSafeName (b1 ++ "Result")

/-- Declaration text emitted for a composite field: the synthesized nested
class followed by a property of that class type named literally `Result`.  The
source's `Object.assign(fieldType, { baseType: { type: baseTypeName } })`
replaces the base descriptor wholesale, so `required`/`valueType` of the
selection type are the JavaScript `undefined`, modelled as `false`. -/
def compositeFieldText (name : String) (rt : CSharpFieldType) (selectionFields : List String) :
    String :=
  let baseTypeName := compositeClassName name rt
  let selectionType : CSharpFieldType := ⟨⟨baseTypeName, false, false⟩, rt.listType⟩
  let selectionTypeName := wrapFieldType selectionType selectionType.listType "List"
  let innerClassDefinition :=
    declarationBlock "public" "class" baseTypeName [] (String.intercalate "\n" selectionFields)
  indentMultiline
    (innerClassDefinition ++ "\n[JsonProperty(\"" ++ name ++ "\")]\npublic " ++
      selectionTypeName ++ " Result \x7b get; set; \x7d\n") 1

/-- Error message of the `Unsupported kind` throws: the interpolated `node.name`
is a `NameNode` object, which JavaScript stringifies as `[object Object]`, and
the interpolated selection kind is `InlineFragment`. -/
def unsupportedKindMsg : String := "Unsupported kind; [object Object] InlineFragment"

mutual
/-- Embedding of `_getFieldDefinition`: compiles one field selection against
its parent schema object type (`none` models a JavaScript `undefined` parent,
whose `.fields` access raises a `TypeError`). -/
def getFieldDefinition (env : VisitorEnv) :
    Nat → FieldNode → Option ObjectTypeDef → Except JSErr String
  | 0, _, _ => .error .stackOverflow
  | fuel + 1, .mk name selSet, parentSchema =>
    match parentSchema with
    | none => .error (.typeError "Cannot read properties of undefined (reading fields)")
    | some ps =>
      match ps.fields.find? (fun f => f.name == name) with
      | none => .error (.thrown ("Field schema not found; " ++ name))
      | some fieldSchema =>
        match resolveFieldType env fieldSchema.type false with
        | .error e => .error e
        | .ok responseType =>
          match selSet with
          | none => .ok (leafFieldText name responseType)
          | some sels =>
            let innerClassSchema :=
              env.schemaObjects.find? (fun d => d.name == responseType.baseType.type)
            match sels with
            | [Selection.fragmentSpread fragName] =>
              .ok (soleSpreadFieldText name responseType fragName)
            | _ =>
              match selectionsToFields env fuel sels innerClassSchema with
              | .error e => .error e
              | .ok selectionFields => .ok (compositeFieldText name responseType selectionFields)

/-- Embedding of the per-selection map inside `_getFieldDefinition`'s composite
branch: an inline fragment throws, a fragment spread is inlined, a field
recurses. -/
def selectionsToFields (env : VisitorEnv) :
    Nat → List Selection → Option ObjectTypeDef → Except JSErr (List String)
  | _, [], _ => .ok []
  | 0, _ :: _, _ => .error .stackOverflow
  | fuel + 1, s :: rest, parent =>
    match
      ((match s with
        | Selection.inlineFragment => .error (.thrown unsupportedKindMsg)
        | Selection.fragmentSpread n => getFragmentSpreadDefinition env fuel n parent
        | Selection.field f => getFieldDefinition env fuel f parent) :
        Except JSErr String) with
    | .error e => .error e
    | .ok hd =>
      match selectionsToFields env fuel rest parent with
      | .error e => .error e
      | .ok tl => .ok (hd :: tl)

/-- Embedding of `_getFragmentSpreadDefinition`: looks the fragment up among
the loaded fragments and inlines its selections against the current parent
schema type. -/
def getFragmentSpreadDefinition (env : VisitorEnv) :
    Nat → String → Option ObjectTypeDef → Except JSErr String
  | 0, _, _ => .error .stackOverflow
  | fuel + 1, name, parentSchema =>
    match env.fragments.find? (fun f => f.name == name) with
    | none => .error (.thrown ("Fragment schema not found; " ++ name))
    | some frag =>
      match fragmentSelectionsToFields env fuel frag.selections parentSchema with
      | .error e => .error e
      | .ok parts => .ok (String.intercalate "\n" parts)

/-- Embedding of the per-selection map inside `_getFragmentSpreadDefinition`:
an inline fragment throws, a field recurses, a nested spread is inlined in
turn. -/
def fragmentSelectionsToFields (env : VisitorEnv) :
    Nat → List Selection → Option ObjectTypeDef → Except JSErr (List String)
  | _, [], _ => .ok []
  | 0, _ :: _, _ => .error .stackOverflow
  | fuel + 1, s :: rest, parent =>
    match
      ((match s with
        | Selection.inlineFragment => .error (.thrown unsupportedKindMsg)
        | Selection.field f => getFieldDefinition env fuel f parent
        | Selection.fragmentSpread n => getFragmentSpreadDefinition env fuel n parent) :
        Except JSErr String) with
    | .error e => .error e
    | .ok hd =>
      match fragmentSelectionsToFields env fuel rest parent with
      | .error e => .error e
      | .ok tl => .ok (hd :: tl)
end

/- ### Naming engine (visitor.ts lines 583–595, 620–622) -/

/-- Base-visitor name conversion applied to an operation definition node
(pascal-cases the operation's name). -/
def operationConvertName (node : OperationDefinitionNode) : String :=
  pascalCase (node.name.getD "")

/-- Embedding of `_getResponseClassName`: converted operation name plus the
fixed `Payload` suffix, with a leading `Get` stripped. -/
def responseClassName (node : OperationDefinitionNode) : String :=
  let className := operationConvertName node ++ "Payload"
  if className.startsWith "Get" then className.drop 3 else className

/-- Embedding of `_getVariablesClassName`: converted operation name plus the
fixed `Request` suffix. -/
def variablesClassName (node : OperationDefinitionNode) : String :=
  operationConvertName node ++ "Request"

/- ### Response and fragment classes (`getResponseClass` / `getFragmentClass`,
visitor.ts lines 597–644) -/

/-- Embedding of the shared per-top-level-selection map of `getResponseClass`
and `getFragmentClass`: any non-field selection at the root throws the
`Unknown kind` error naming the offending kind. -/
def operationRootBlocks (env : VisitorEnv) (fuel : Nat) :
    List Selection → Option ObjectTypeDef → Except JSErr (List String)
  | [], _ => .ok []
  | Selection.field f :: rest, parent =>
    match getFieldDefinition env fuel f parent with
    | .error e => .error e
    | .ok s =>
      match operationRootBlocks env fuel rest parent with
      | .error e => .error e
      | .ok tl => .ok (s :: tl)
  | s :: _, _ =>
    .error (.thrown ("Unknown kind; " ++ selKindName s ++ " in OperationDefinitionNode"))

/-- Embedding of `getResponseClass`: looks the operation's root object type up
by lower-cased name — with no existence check — and compiles every top-level
selection against it. -/
def getResponseClass (env : VisitorEnv) (fuel : Nat) (node : OperationDefinitionNode) :
    Except JSErr String :=
  match operationRootBlocks env fuel node.selectionSet
      (env.schemaObjects.find? (fun s => toLowerStr s.name == node.operation)) with
  | .error e => .error e
  | .ok parts =>
    .ok (declarationBlock "public" "class" (responseClassName node) []
      ("\n" ++ String.intercalate "\n" parts))

/-- Embedding of `getFragmentClass`: a class named after the fragment, its body
compiled against the fragment's type-condition object type (likewise without an
existence check on the lookup). -/
def getFragmentClass (env : VisitorEnv) (fuel : Nat) (node : FragmentDef) :
    Except JSErr String :=
  match operationRootBlocks env fuel node.selections
      (env.schemaObjects.find? (fun s => s.name == node.typeCondition)) with
  | .error e => .error e
  | .ok parts =>
    .ok (declarationBlock "public" "class" (convertName node.name) []
      ("\n" ++ String.intercalate "\n" parts))

/- ### Request class (`getRequestClass`, visitor.ts lines 646–702) -/

/-- Sequential traversal of a list under the exception monad, as performed by a
JavaScript `Array.prototype.map` whose callback may throw. -/
def mapExcept (f : α → Except JSErr β) : List α → Except JSErr (List β)
  | [] => .ok []
  | x :: xs =>
    match f x with
    | .error e => .error e
    | .ok y =>
      match mapExcept f xs with
      | .error e => .error e
      | .ok ys => .ok (y :: ys)

/-- Property text emitted for one operation variable: the serialization tag
carries the original variable name, the in-class name is its pascal-cased,
escaped form. -/
def requestField (env : VisitorEnv) (v : VariableDefinition) : Except JSErr String :=
  match resolveFieldType env v.type false with
  | .error e => .error e
  | .ok inputType =>
    .ok (indentMultiline
      ("[JsonProperty(\"" ++ v.name ++ "\")]\npublic " ++
        wrapFieldType inputType inputType.listType "List" ++ " " ++
        convertSafeName (pascalCase v.name) ++ " \x7b get; set; \x7d\n") 1)

/-- The request class's property section: a leading newline plus the
newline-joined per-variable properties. -/
def requestFields (env : VisitorEnv) (vars : List VariableDefinition) : Except JSErr String :=
  match mapExcept (requestField env) vars with
  | .error e => .error e
  | .ok l => .ok ("\n" ++ String.intercalate "\n" l)

/-- One constructor parameter: resolved type name followed by the escaped
original variable name. -/
def constructorParam (env : VisitorEnv) (v : VariableDefinition) : Except JSErr String :=
  match resolveFieldType env v.type false with
  | .error e => .error e
  | .ok inputType =>
    .ok (wrapFieldType inputType inputType.listType "List" ++ " " ++ convertSafeName v.name)

/-- The constructor parameter list: per-variable parameters in declaration
order, separated by `, ` (the source's index loop appends the separator after
every parameter but the last). -/
def requestConstructorParams (env : VisitorEnv) (vars : List VariableDefinition) :
    Except JSErr String :=
  match mapExcept (constructorParam env) vars with
  | .error e => .error e
  | .ok l => .ok (String.intercalate ", " l)

/-- The constructor body's assignments, one per variable in declaration order:
each escaped parameter name is assigned to its pascal-cased property. -/
def requestConstructorAssignments (vars : List VariableDefinition) : String :=
  String.join (vars.map (fun v =>
    "\n  " ++ convertSafeName (pascalCase v.name) ++ " = " ++ convertSafeName v.name ++ ";"))

/-- Embedding of `getRequestClass`: empty output for a variable-less operation;
otherwise a class holding one property per variable and a single constructor. -/
def getRequestClass (env : VisitorEnv) (node : OperationDefinitionNode) : Except JSErr String :=
  if node.variableDefinitions.isEmpty then .ok ""
  else
    match requestFields env node.variableDefinitions with
    | .error e => .error e
    | .ok fields =>
      match requestConstructorParams env node.variableDefinitions with
      | .error e => .error e
      | .ok constructorParams =>
        let constructor :=
          "public " ++ variablesClassName node ++ "(" ++ constructorParams ++ ") \x7b" ++
            requestConstructorAssignments node.variableDefinitions ++ "\n\x7d"
        .ok (declarationBlock "public" "class" (variablesClassName node) []
          (fields ++ "\n" ++ constructor))

/- ### Enum and input declarations (`getEnumDefinition` /
`InputObjectTypeDefinition` / `EnumTypeDefinition`, visitor.ts lines 704–712,
860–906) -/

/-- Embedding of `getEnumDefinition` (the plugin-path enum generator — it does
not consult the typesafe flag): a public enum listing the value names. -/
def getEnumDefinition (node : EnumTypeDef) : String :=
  let enumDefinition :=
    declarationBlock "public" "enum" (convertSafeName (convertName node.name)) []
      (indentMultiline (String.intercalate ",\n" node.values) 1)
  indentMultiline enumDefinition 2

/-- Embedding of the `InputObjectTypeDefinition` visitor handler: empty when
the typesafe flag (`ts`) is off, otherwise a class with one property per input
value definition. -/
def InputObjectTypeDefinitionHandler (ts : Bool) (env : VisitorEnv)
    (node : InputObjectTypeDef) : Except JSErr String :=
  if !ts then .ok ""
  else
    match mapExcept (fun f =>
        match resolveFieldType env f.2 false with
        | .error e => .error e
        | .ok inputType =>
          .ok (indentMultiline
            ("[JsonProperty(\"" ++ f.1 ++ "\")]\npublic " ++
              wrapFieldType inputType inputType.listType "List" ++ " " ++
              convertSafeName (pascalCase f.1) ++ " \x7b get; set; \x7d\n") 1))
      node.fields with
    | .error e => .error e
    | .ok props =>
      .ok (indentMultiline
        (declarationBlock "public" "class" (convertSafeName (convertName node.name)) []
          ("\n" ++ String.intercalate "\n" props)) 2)

/-- Embedding of the `EnumTypeDefinition` visitor handler: empty when the
typesafe flag is off, otherwise the same enum block as `getEnumDefinition`. -/
def EnumTypeDefinitionHandler (ts : Bool) (node : EnumTypeDef) : String :=
  if !ts then "" else getEnumDefinition node

/- ### Client surface (visitor.ts lines 311–403, 714–766) -/

/-- Embedding of `getCSharpImports`: the fixed using list, extended with the
transport-serialization imports only when an endpoint configuration is
present. -/
def getCSharpImports (env : VisitorEnv) : String :=
  let imports :=
    ["System", "System.Collections.Generic", "System.Threading.Tasks", "System.Net.Http",
     "System.Net.Http.Headers", "Newtonsoft.Json", "GraphQL", "GraphQL.Client.Abstractions"] ++
      (if env.httpClientConfig.isSome then
        ["GraphQL.Client.Serializer.Newtonsoft", "GraphQL.Client.Http"]
      else [])
  String.intercalate "\n" (imports.map (fun i => "using " ++ i ++ ";")) ++ "\n"

/-- Generated getter body for the single-endpoint case: lazily constructs one
client against the primary endpoint, never mentioning the selection predicate. -/
def prodOnlyGetterText (prodEndpoint : String) : String :=
  "private static GraphQLHttpClient client \x7b\n          get \x7b\n            if (_client == null) \x7b\n              _client = new GraphQLHttpClient(\"" ++
    prodEndpoint ++
    "\", new NewtonsoftJsonSerializer());\n            \x7d\n\n            return _client;\n          \x7d\n        \x7d"

/-- Generated getter body for the dual-endpoint case: the selection predicate
expression is evaluated inside the one-time initialization guard to choose the
endpoint. -/
def devIfGetterText (useDevIf devEndpoint prodEndpoint : String) : String :=
  "private static GraphQLHttpClient client \x7b\n          get \x7b\n            if (_client == null) \x7b\n              var endpoint = " ++
    useDevIf ++ " ? \"" ++ devEndpoint ++ "\" : \"" ++ prodEndpoint ++
    "\";\n              _client = new GraphQLHttpClient(endpoint, new NewtonsoftJsonSerializer());\n            \x7d\n\n            return _client;\n          \x7d\n        \x7d"

/-- Embedding of `getClientDeclaration`: nothing without an endpoint
configuration or without a primary endpoint; otherwise the static client field
plus one of the two lazy getters (the predicate getter only when both a
predicate and a secondary endpoint are configured — JavaScript falsiness is the
empty string). -/
def getClientDeclaration (env : VisitorEnv) : String :=
  match env.httpClientConfig with
  | none => ""
  | some cfg =>
    if cfg.prodEndpoint = "" then ""
    else
      "private static GraphQLHttpClient _client;\n" ++
        (if cfg.useDevIf = "" ∨ cfg.devEndpoint = "" then
          prodOnlyGetterText cfg.prodEndpoint
        else
          devIfGetterText cfg.useDevIf cfg.devEndpoint cfg.prodEndpoint)

/-- Embedding of `getHttpRequestClass`: a fixed transport-request subclass,
emitted only when an endpoint configuration is present. -/
def getHttpRequestClass (env : VisitorEnv) : String :=
  if env.httpClientConfig.isNone then ""
  else
    "\n    internal class GraphQLHttpRequestWithHeaders : GraphQLHttpRequest \x7b\n      public string AuthToken \x7b get; set; \x7d\n      public Dictionary<string, string> Headers \x7b get; set; \x7d\n\n      public override HttpRequestMessage ToHttpRequestMessage(\n          GraphQLHttpClientOptions options,\n          IGraphQLJsonSerializer serializer) \x7b\n          var r = base.ToHttpRequestMessage(options, serializer);\n\n          if (AuthToken != null) \x7b\n              r.Headers.Authorization = new AuthenticationHeaderValue(\"Bearer\", AuthToken);\n          \x7d\n\n          if (Headers != null) \x7b\n              foreach (var h in Headers) \x7b\n                  r.Headers.Add(h.Key, h.Value);\n              \x7d\n          \x7d\n\n          return r;\n      \x7d\n    \x7d"

/-- Embedding of `getHasErrorExtension`: the fixed error-presence helper. -/
def getHasErrorExtension : String :=
  "\n    public static class GraphQLResponseExtensions \x7b\n        public static bool HasError<T>(this GraphQLResponse<T> response) \x7b\n            return response.Errors != null;\n        \x7d\n    \x7d"

/-- The `clientArgument` instance field: an explicit transport-client parameter
exactly when no endpoint configuration is present. -/
def clientArgument (env : VisitorEnv) : String :=
  if env.httpClientConfig.isSome then "" else "IGraphQLClient client, "

/-- The `httpArguments` instance field. -/
def httpArguments : String :=
  "string authToken = \"\", Dictionary<string, string> headers = null"

/-- The `variablesObjectName` instance field. -/
def variablesObjectName : String := "request"

/-- Embedding of `getVariablesArguments`: the request-class parameter, present
only when the operation declares variables. -/
def getVariablesArguments (node : OperationDefinitionNode) : String :=
  if node.variableDefinitions.isEmpty then ""
  else variablesClassName node ++ " " ++ variablesObjectName ++ ", "

/-- Embedding of `getMutationMethodDefinition` (shared by queries and
mutations). -/
def getMutationMethodDefinition (env : VisitorEnv) (node : OperationDefinitionNode) : String :=
  "Task<GraphQLResponse<" ++ responseClassName node ++ ">> " ++ operationConvertName node ++
    "Async(\n                  " ++ clientArgument env ++ "\n                  " ++
    getVariablesArguments node ++ "\n                  " ++
    (if env.httpClientConfig.isSome then httpArguments ++ ", " else "") ++
    "\n                  System.Threading.CancellationToken cancellationToken = default\n                )"

/-- Embedding of `getSubscriptionMethodDefinition`. -/
def getSubscriptionMethodDefinition (env : VisitorEnv) (node : OperationDefinitionNode) :
    String :=
  "IObservable<GraphQLResponse<" ++ responseClassName node ++
    ">> CreateSubscriptionStream(\n                  " ++ clientArgument env ++
    "\n                  " ++ getVariablesArguments node ++ "\n                  " ++
    (if env.httpClientConfig.isSome then httpArguments else "") ++ "\n            )"

/-- Embedding of `getSubscriptionMethodDefinitionWithHandler`. -/
def getSubscriptionMethodDefinitionWithHandler (env : VisitorEnv)
    (node : OperationDefinitionNode) : String :=
  "IObservable<GraphQLResponse<" ++ responseClassName node ++
    ">> CreateSubscriptionStream(\n                  " ++ clientArgument env ++
    "\n                  " ++ getVariablesArguments node ++
    "\n                  Action<Exception> exceptionHandler\n                  " ++
    (if env.httpClientConfig.isSome then ", " ++ httpArguments else "") ++ "\n            )"

/-- Embedding of `getOperationInterfaceMethods`: one signature for
query/mutation, two for subscription, a thrown error otherwise. -/
def getOperationInterfaceMethods (env : VisitorEnv) (node : OperationDefinitionNode) :
    Except JSErr String :=
  if node.operation = "query" ∨ node.operation = "mutation" then
    .ok (getMutationMethodDefinition env node ++ ";")
  else if node.operation = "subscription" then
    .ok (getSubscriptionMethodDefinition env node ++ ";\n                " ++
      getSubscriptionMethodDefinitionWithHandler env node ++ ";")
  else .error (.thrown ("Unexpected operation type: " ++ node.operation))

/- ### Concrete methods (`_gql` / `_getDocumentNodeVariable` /
`getOperationConcreteMethod`, visitor.ts lines 269–285, 768–836) -/

/-- Embedding of `_gql`: the re-serialized operation document (supplied by the
modelled `printDoc`) with every double quote doubled for embedding in a C#
verbatim string. -/
def gqlDoc (env : VisitorEnv) (node : OperationDefinitionNode) : String :=
  (env.printDoc node).replace "\"" "\"\""

/-- Embedding of `_getDocumentNodeVariable`: an inline verbatim-string document
unless the document mode is external. -/
def getDocumentNodeVariable (env : VisitorEnv) (node : OperationDefinitionNode) : String :=
  if !env.documentModeExternal then
    "@\"\n" ++ indentMultiline (gqlDoc env node) 4 ++ "\""
  else
    "Operations." ++ node.name.getD ""

/-- The request-payload construction statement of a concrete method body. -/
def requestPayloadText (env : VisitorEnv) (node : OperationDefinitionNode) (nameValue : String)
    (hasInputArgs : Bool) : String :=
  if env.httpClientConfig.isSome then
    "\n      var gqlRequest = new GraphQLHttpRequestWithHeaders \x7b\n          Query = " ++
      getDocumentNodeVariable env node ++
      ",\n          AuthToken = authToken,\n          Headers = headers,\n          OperationName = \"" ++
      nameValue ++ "\"" ++
      (if hasInputArgs then ",\n          Variables = " ++ variablesObjectName else "") ++
      "\n      \x7d;"
  else
    "\n      var gqlRequest = new GraphQLRequest \x7b\n          Query = " ++
      getDocumentNodeVariable env node ++ ",\n          OperationName = \"" ++ nameValue ++
      "\"" ++
      (if hasInputArgs then ",\n          Variables = " ++ variablesObjectName else "") ++
      "\n      \x7d;"

/-- Embedding of `getOperationConcreteMethod`: guards the root-type lookup with
a descriptive `Operation schema not found` error, then emits the concrete
method(s).  Reading `node.name.value` of an anonymous operation is the
JavaScript `TypeError` on `undefined`. -/
def getOperationConcreteMethod (env : VisitorEnv) (node : OperationDefinitionNode) :
    Except JSErr String :=
  match env.schemaObjects.find? (fun s => toLowerStr s.name == node.operation) with
  | none => .error (.thrown ("Operation schema not found; " ++ node.operation))
  | some operationSchema =>
    let hasInputArgs := !node.variableDefinitions.isEmpty
    match node.name with
    | none => .error (.typeError "Cannot read properties of undefined (reading value)")
    | some nameValue =>
      let request := requestPayloadText env node nameValue hasInputArgs
      if node.operation = "query" ∨ node.operation = "mutation" then
        .ok ("\n          public " ++ getMutationMethodDefinition env node ++
          " \x7b\n            " ++ request ++ "\n            return client.Send" ++
          operationSchema.name ++ "Async<" ++ responseClassName node ++
          ">(gqlRequest, cancellationToken);\n          \x7d\n        ")
      else if node.operation = "subscription" then
        .ok ("\n          public " ++ getSubscriptionMethodDefinition env node ++
          " \x7b\n            " ++ request ++
          "\n            return client.CreateSubscriptionStream<" ++ responseClassName node ++
          ">(gqlRequest);\n          \x7d\n\n          public " ++
          getSubscriptionMethodDefinitionWithHandler env node ++ " \x7b\n            " ++
          request ++ "\n            return client.CreateSubscriptionStream<" ++
          responseClassName node ++ ">(gqlRequest, exceptionHandler);\n          \x7d\n        ")
      else .error (.thrown ("Unexpected operation type: " ++ node.operation))

/- ### Visitor handlers (`OperationDefinition`, visitor.ts lines 838–858) -/

/-- Embedding of the `OperationDefinition` visitor handler.  The collected
operations list is threaded separately from the result so that the push
performed before a later throw is preserved, as in the source.  An anonymous
operation (no name, or an empty name) yields `null` (here `none`) and is not
collected. -/
def OperationDefinitionHandler (ts : Bool) (env : VisitorEnv) (fuel : Nat)
    (collected : List OperationDefinitionNode) (node : OperationDefinitionNode) :
    List OperationDefinitionNode × Except JSErr (Option String) :=
  if (match node.name with | none => true | some v => v = "") then
    (collected, .ok none)
  else
    let collected2 := collected ++ [node]
    if ts then
      match getRequestClass env node with
      | .error e => (collected2, .error e)
      | .ok req =>
        match getResponseClass env fuel node with
        | .error e => (collected2, .error e)
        | .ok resp =>
          match getOperationConcreteMethod env node with
          | .error e => (collected2, .error e)
          | .ok meth =>
            let typesafeOperations :=
              indentMultiline
                ("\n      " ++ req ++ "\n      " ++ resp ++ "\n      public partial class " ++
                  env.operationsClassName ++ " \x7b\n        " ++ meth ++ "\n      \x7d") 3
            (collected2,
              .ok (some (String.intercalate "\n"
                (List.filter (fun a => a != "") [typesafeOperations]))))
    else
      (collected2,
        .ok (some (String.intercalate "\n" (List.filter (fun a => a != "") [("" : String)]))))

/- ### Plugin entry (`plugin`, index.ts lines 23–135) -/

/-- One accumulation buffer of the plugin: `forEach { buffer += f(x); buffer
+= newline }` under the exception monad. -/
def accumulateE (f : α → Except JSErr String) : List α → Except JSErr String
  | [] => .ok ""
  | x :: xs =>
    match f x with
    | .error e => .error e
    | .ok d =>
      match accumulateE f xs with
      | .error e => .error e
      | .ok rest => .ok (d ++ "\n" ++ rest)

/-- Pure accumulation buffer (for the enum generator, which cannot throw). -/
def accumulateP (f : α → String) (xs : List α) : String :=
  String.join (xs.map (fun x => f x ++ "\n"))

/-- The plugin's input-declaration buffer. -/
def pluginInputDefinitions (ts : Bool) (env : VisitorEnv) (inputs : List InputObjectTypeDef) :
    Except JSErr String :=
  accumulateE (InputObjectTypeDefinitionHandler ts env) inputs

/-- The plugin's fragment-declaration buffer. -/
def pluginFragmentDefinitions (env : VisitorEnv) (fuel : Nat) : Except JSErr String :=
  accumulateE (getFragmentClass env fuel) env.fragments

/-- The plugin's interface-method buffer. -/
def pluginInterfaceMethods (env : VisitorEnv) (ops : List OperationDefinitionNode) :
    Except JSErr String :=
  accumulateE (getOperationInterfaceMethods env) ops

/-- The plugin's concrete-method buffer. -/
def pluginOperationDefinitions (env : VisitorEnv) (ops : List OperationDefinitionNode) :
    Except JSErr String :=
  accumulateE (getOperationConcreteMethod env) ops

/-- The plugin's request-declaration buffer. -/
def pluginRequestDefinitions (env : VisitorEnv) (ops : List OperationDefinitionNode) :
    Except JSErr String :=
  accumulateE (getRequestClass env) ops

/-- The plugin's response-declaration buffer. -/
def pluginResponseDefinitions (env : VisitorEnv) (fuel : Nat)
    (ops : List OperationDefinitionNode) : Except JSErr String :=
  accumulateE (getResponseClass env fuel) ops

/-- The plugin's enum-declaration buffer (built through `getEnumDefinition`,
which does not consult the typesafe flag). -/
def pluginEnumDefinitions (enums : List EnumTypeDef) : String :=
  accumulateP getEnumDefinition enums

/-- Embedding of `wrapWithNamespace`. -/
def wrapWithNamespace (content name : String) : String :=
  declarationBlock "" "namespace" name [] (indentMultiline content 1)

/-- Embedding of the `plugin` entry point.  The harness-side filtering of the
concatenated AST into operations / fragments / inputs / enums is modelled by
taking the filtered lists as arguments (the fragment list is the one already
stored in the visitor env, as the source passes `allFragments` to the
visitor's constructor).  The typesafe flag `ts` is the `config.typesafeOperation`
value handed to the visitor. -/
def plugin (env : VisitorEnv) (ts : Bool) (fuel : Nat)
    (allOperations : List OperationDefinitionNode)
    (allInputTypes : List InputObjectTypeDef)
    (allEnumTypes : List EnumTypeDef) : Except JSErr String :=
  match pluginInputDefinitions ts env allInputTypes with
  | .error e => .error e
  | .ok inputDefinitions =>
    match pluginFragmentDefinitions env fuel with
    | .error e => .error e
    | .ok fragmentDefinitions =>
      match pluginInterfaceMethods env allOperations with
      | .error e => .error e
      | .ok operationInterfaceMethods =>
        match pluginOperationDefinitions env allOperations with
        | .error e => .error e
        | .ok operationDefinitions =>
          match pluginRequestDefinitions env allOperations with
          | .error e => .error e
          | .ok requestDefinitions =>
            match pluginResponseDefinitions env fuel allOperations with
            | .error e => .error e
            | .ok responseDefinitions =>
              let enumDefinitions := pluginEnumDefinitions allEnumTypes
              let clientInterfaceName := "I" ++ env.operationsClassName
              let clientInterface :=
                declarationBlock "public" "interface" clientInterfaceName []
                  operationInterfaceMethods
              let clientClass :=
                declarationBlock "public" "class" env.operationsClassName
                  [clientInterfaceName]
                  (String.intercalate "\n" [getClientDeclaration env, operationDefinitions])
              let blockContent :=
                String.intercalate "\n"
                  [clientInterface, clientClass, requestDefinitions, responseDefinitions,
                   fragmentDefinitions, inputDefinitions, enumDefinitions,
                   getHttpRequestClass env, getHasErrorExtension]
              let wrappedContent := wrapWithNamespace blockContent env.namespaceName
              .ok (String.intercalate "\n" [getCSharpImports env, wrappedContent])

/- ### Runtime of the generated client getter (modelled from the text emitted
by `getClientDeclaration`, visitor.ts lines 338–361) -/

/-- Modelled from the generated source text: one invocation of the generated
`client` get accessor.  The state is the static `_client` field, recorded as
the endpoint the client was constructed against (`none` before first use); the
result is the new state, the endpoint of the returned client, and the number of
evaluations of the `useDevIf` selection predicate performed during the call.
The prod-only getter (emitted when the predicate or the secondary endpoint is
absent, i.e. the empty string) never references the predicate; the dual getter
evaluates it only inside the `_client == null` initialization guard. -/
def clientGetterStep (cfg : HttpClientConfig) (predicateValue : Bool) (st : Option String) :
    Option String × String × Nat :=
  if cfg.useDevIf = "" ∨ cfg.devEndpoint = "" then
    match st with
    | none => (some cfg.prodEndpoint, cfg.prodEndpoint, 0)
    | some c => (some c, c, 0)
  else
    match st with
    | none =>
      let endpoint := if predicateValue then cfg.devEndpoint else cfg.prodEndpoint
      (some endpoint, endpoint, 1)
    | some c => (some c, c, 0)

/- ### Sample environment used by concrete witnesses -/

/-- Scalar mapping table of the sample environment (default C# scalar map for
the built-in scalars; `Custom` is deliberately unmapped). -/
def sampleScalars : String → Option String := fun s =>
  if s == "ID" then some "string"
  else if s == "String" then some "string"
  else if s == "Int" then some "int"
  else none

/-- A small concrete visitor environment for evaluating the embedded
generators on explicit inputs. -/
def sampleEnv : VisitorEnv :=
  { schemaTypes :=
      [⟨"ID", .scalar⟩, ⟨"String", .scalar⟩, ⟨"Int", .scalar⟩, ⟨"Custom", .scalar⟩,
       ⟨"Hero", .object⟩, ⟨"Query", .object⟩],
    schemaObjects :=
      [⟨"Query",
        [⟨"hero", .named "Hero"⟩, ⟨"heroes", .list (.named "Hero")⟩,
         ⟨"name", .named "String"⟩]⟩,
       ⟨"Hero", [⟨"id", .nonNull (.named "ID")⟩, ⟨"name", .named "String"⟩]⟩],
    fragments := [⟨"HeroFields", "Hero", [Selection.field (.mk "id" none)]⟩],
    scalars := sampleScalars,
    operationsClassName := "GraphQLClient",
    namespaceName := "GraphQLCodeGen",
    httpClientConfig := none,
    documentModeExternal := false,
    printDoc := fun _ => "query" }

/-- The emitted property text of the sample `id : ID!` operation variable. -/
def requestField0 : String :=
  indentMultiline "[JsonProperty(\"id\")]\npublic string Id \x7b get; set; \x7d\n" 1

/-- Character-list prefix test (building block of the substring check). -/
def isPrefixL : List Char → List Char → Bool
  | [], _ => true
  | _ :: _, [] => false
  | a :: as, b :: bs => a == b && isPrefixL as bs

/-- Substring scan over character lists. -/
def hasSubAux (pat : List Char) : List Char → Bool
  | [] => isPrefixL pat []
  | a :: rest => isPrefixL pat (a :: rest) || hasSubAux pat rest

/-- Whether `pat` occurs as a contiguous substring of `s`. -/
def hasSub (s pat : String) : Bool := hasSubAux pat.data s.data

/-- The successful output of a generation run (empty on error). -/
def exceptOkD (e : Except JSErr String) : String :=
  match e with
  | .ok s => s
  | .error _ => ""

/-- A sample enum type definition of the document set. -/
def colorEnum : EnumTypeDef := ⟨"Color", ["RED", "GREEN"]⟩

/-- Environment of the typesafe-flag run: empty schema, no fragments, no
endpoint configuration. -/
def envC1 : VisitorEnv :=
  { schemaTypes := [], schemaObjects := [], fragments := [],
    scalars := fun _ => none,
    operationsClassName := "GraphQLClient", namespaceName := "GraphQLCodeGen",
    httpClientConfig := none, documentModeExternal := false,
    printDoc := fun _ => "" }

/- ### C3 -/

/-- C3 counterexample: resolving `[String!]!` with the default-value flag set
leaves the base element required (`required = true`) even though the claim says
requiredness is forced optional at the base-element level as well; only the
list wrapper's requiredness is cleared. -/
theorem defaultValue_keeps_base_required_under_list :
    resolveFieldType sampleEnv (.nonNull (.list (.nonNull (.named "String")))) true =
      .ok ⟨⟨"string", true, false⟩, some (.mk false none)⟩ ∧
    (⟨⟨"string", true, false⟩, some (.mk false none)⟩ : CSharpFieldType).baseType.required
      = true :=
  ⟨rfl, rfl⟩

/-- C3 (amended): with the default-value flag set, the resolved descriptor is
optional at its outermost level only — the list wrapper when one exists,
otherwise the base element; a wrapped base element keeps its schema-declared
requiredness.  Resolution is a pure function, so repeated resolution trivially
yields the same descriptor. -/
theorem resolveFieldType_default_forces_outer_optional (env : VisitorEnv) (tn : TypeNode)
    (ft : CSharpFieldType) (h : resolveFieldType env tn true = .ok ft) :
    (∀ r i, ft.listType = some (.mk r i) → r = false) ∧
    (ft.listType = none → ft.baseType.required = false) := by
  unfold resolveFieldType at h
  simp only [eq_self_iff_true, if_true] at h
  split at h
  · exact absurd h (by simp)
  · next r hB =>
    split at h
    · next r0 inner heq =>
      simp only [Except.ok.injEq] at h
      subst h
      constructor
      · intro r1 i hri
        simp only [Option.some.injEq, ListTypeField.mk.injEq] at hri
        exact hri.1.symm
      · intro hnone
        simp at hnone
    · next heq =>
      simp only [Except.ok.injEq] at h
      subst h
      constructor
      · intro r1 i hri
        rw [heq] at hri
        simp at hri
      · intro _
        rfl

/-- Witness for the amended C3 theorem at a concrete optional scalar input. -/
theorem resolveFieldType_default_forces_outer_optional_witness :
    (⟨⟨"string", false, false⟩, none⟩ : CSharpFieldType).baseType.required = false :=
  (resolveFieldType_default_forces_outer_optional sampleEnv (.named "String") _ rfl).2 rfl

/- ### C4 -/

/-- C4: a scalar type reference with a configured (nonempty) mapping resolves
to the mapped native type with the mapping's declared value-type flag; an
unmapped (or empty-mapped) scalar resolves to the untyped `object` fallback,
not a value type, and never to an error. -/
theorem resolveFieldType_scalar_mapping (env : VisitorEnv) (tn : TypeNode) (st : SchemaType)
    (hfind : env.schemaTypes.find? (fun t => t.name == getBaseTypeNode tn) = some st)
    (hkind : st.kind = SchemaTypeKind.scalar) :
    (∀ bt, env.scalars st.name = some bt → ¬bt = "" →
      resolveFieldType env tn false =
        .ok ⟨⟨bt, schemaRequired tn, isValueType bt⟩, getListTypeField tn⟩) ∧
    (env.scalars st.name = none →
      resolveFieldType env tn false =
        .ok ⟨⟨"object", schemaRequired tn, false⟩, getListTypeField tn⟩) ∧
    (env.scalars st.name = some "" →
      resolveFieldType env tn false =
        .ok ⟨⟨"object", schemaRequired tn, false⟩, getListTypeField tn⟩) := by
  obtain ⟨nm, k⟩ := st
  simp only [SchemaType.kind] at hkind
  subst hkind
  refine ⟨?_, ?_, ?_⟩
  · intro bt hbt hne
    simp [resolveFieldType, resolveFieldTypeBase, hfind, hbt, hne]
  · intro hbt
    simp [resolveFieldType, resolveFieldTypeBase, hfind, hbt]
  · intro hbt
    simp [resolveFieldType, resolveFieldTypeBase, hfind, hbt]

/-- Witness for C4: the mapped `ID` scalar and the unmapped `Custom` scalar of
the sample environment. -/
theorem resolveFieldType_scalar_mapping_witness :
    resolveFieldType sampleEnv (.named "ID") false =
      .ok ⟨⟨"string", false, isValueType "string"⟩, none⟩ ∧
    resolveFieldType sampleEnv (.named "Custom") false =
      .ok ⟨⟨"object", false, false⟩, none⟩ :=
  ⟨(resolveFieldType_scalar_mapping sampleEnv (.named "ID") ⟨"ID", .scalar⟩ rfl rfl).1
      "string" rfl (by decide),
   (resolveFieldType_scalar_mapping sampleEnv (.named "Custom") ⟨"Custom", .scalar⟩ rfl
      rfl).2.1 rfl⟩

/- ### C6 -/

/-- C6: a field selection whose field is absent from the parent schema type's
field list aborts with the error naming the field, and a fragment spread whose
fragment is not among the loaded fragments aborts with the error naming the
fragment; neither produces declaration text. -/
theorem missing_field_or_fragment_schema_aborts :
    (∀ (env : VisitorEnv) (fuel : Nat) (name : String) (selSet : Option (List Selection))
        (p : ObjectTypeDef),
      p.fields.find? (fun f => f.name == name) = none →
      getFieldDefinition env (fuel + 1) (.mk name selSet) (some p) =
        .error (.thrown ("Field schema not found; " ++ name))) ∧
    (∀ (env : VisitorEnv) (fuel : Nat) (name : String) (parent : Option ObjectTypeDef),
      env.fragments.find? (fun f => f.name == name) = none →
      getFragmentSpreadDefinition env (fuel + 1) name parent =
        .error (.thrown ("Fragment schema not found; " ++ name))) := by
  constructor
  · intro env fuel name selSet p h
    simp [getFieldDefinition, h]
  · intro env fuel name parent h
    simp [getFragmentSpreadDefinition, h]

/-- Witness for C6 at a concrete unknown field and unknown fragment. -/
theorem missing_field_or_fragment_schema_aborts_witness :
    getFieldDefinition sampleEnv 3 (.mk "power" none)
        (some ⟨"Hero", [⟨"id", .nonNull (.named "ID")⟩]⟩) =
      .error (.thrown "Field schema not found; power") ∧
    getFragmentSpreadDefinition sampleEnv 3 "NoSuchFragment" none =
      .error (.thrown "Fragment schema not found; NoSuchFragment") :=
  ⟨missing_field_or_fragment_schema_aborts.1 sampleEnv 2 "power" none
      ⟨"Hero", [⟨"id", .nonNull (.named "ID")⟩]⟩ rfl,
   missing_field_or_fragment_schema_aborts.2 sampleEnv 2 "NoSuchFragment" none rfl⟩

/- ### C9 -/

/-- C9: when no object type definition's lower-cased name matches the
operation kind, `getResponseClass` proceeds without an existence check and the
field-definition step fails with the runtime `TypeError` of dereferencing an
absent parent schema, while `getOperationConcreteMethod` guards the same
lookup and aborts with the descriptive `Operation schema not found` error. -/
theorem responseClass_unguarded_operation_schema (env : VisitorEnv) (fuel : Nat)
    (node : OperationDefinitionNode) (f : FieldNode) (rest : List Selection)
    (hfind : env.schemaObjects.find? (fun s => toLowerStr s.name == node.operation) = none)
    (hsel : node.selectionSet = Selection.field f :: rest) :
    getResponseClass env (fuel + 1) node =
      .error (.typeError "Cannot read properties of undefined (reading fields)") ∧
    getOperationConcreteMethod env node =
      .error (.thrown ("Operation schema not found; " ++ node.operation)) := by
  constructor
  · obtain ⟨fn, fs⟩ := f
    simp [getResponseClass, hfind, hsel, operationRootBlocks, getFieldDefinition]
  · simp [getOperationConcreteMethod, hfind]

/-- Witness for C9: a mutation against a schema whose only object types are
`Query` and `Hero`. -/
theorem responseClass_unguarded_operation_schema_witness :
    getResponseClass sampleEnv 3 ⟨some "GetA", "mutation", [], [Selection.field (.mk "x" none)]⟩ =
      .error (.typeError "Cannot read properties of undefined (reading fields)") ∧
    getOperationConcreteMethod sampleEnv
        ⟨some "GetA", "mutation", [], [Selection.field (.mk "x" none)]⟩ =
      .error (.thrown "Operation schema not found; mutation") :=
  responseClass_unguarded_operation_schema sampleEnv 2
    ⟨some "GetA", "mutation", [], [Selection.field (.mk "x" none)]⟩ (.mk "x" none) [] rfl rfl

/- ### C10 -/

/-- C10: an operation definition without a name makes the
`OperationDefinition` handler return `null` and leave the collected-operations
list untouched — the anonymous operation is silently skipped, with no error
raised and no request/response/method text produced for it. -/
theorem anonymous_operation_skipped (ts : Bool) (env : VisitorEnv) (fuel : Nat)
    (collected : List OperationDefinitionNode) (node : OperationDefinitionNode)
    (h : node.name = none) :
    OperationDefinitionHandler ts env fuel collected node = (collected, .ok none) := by
  unfold OperationDefinitionHandler
  rw [h]
  simp

/-- Witness for C10 at a concrete anonymous query. -/
theorem anonymous_operation_skipped_witness :
    OperationDefinitionHandler false sampleEnv 3 []
        ⟨none, "query", [], [Selection.field (.mk "name" none)]⟩ = ([], .ok none) :=
  anonymous_operation_skipped false sampleEnv 3 []
    ⟨none, "query", [], [Selection.field (.mk "name" none)]⟩ rfl

/- ### C8 -/

/-- C8: the generated client's lazy getter.  With only a primary endpoint
configured (predicate or secondary endpoint absent), every call returns a
client against the primary endpoint and never evaluates the selection
predicate (the step is independent of the predicate value).  With both
endpoints and a predicate configured, the first call evaluates the predicate
exactly once, constructs the client against the chosen endpoint and caches it;
every call in a cached state returns the same client unchanged with zero
further predicate evaluations. -/
theorem generated_client_lazy_singleton (cfg : HttpClientConfig) :
    ((cfg.useDevIf = "" ∨ cfg.devEndpoint = "") →
      (∀ p st, (clientGetterStep cfg p st).2.2 = 0) ∧
      (∀ p, (clientGetterStep cfg p none).2.1 = cfg.prodEndpoint) ∧
      (∀ p q st, clientGetterStep cfg p st = clientGetterStep cfg q st)) ∧
    (¬cfg.useDevIf = "" → ¬cfg.devEndpoint = "" →
      (∀ p, clientGetterStep cfg p none =
        (some (if p then cfg.devEndpoint else cfg.prodEndpoint),
         if p then cfg.devEndpoint else cfg.prodEndpoint, 1)) ∧
      (∀ p c, clientGetterStep cfg p (some c) = (some c, c, 0))) := by
  constructor
  · intro hone
    refine ⟨?_, ?_, ?_⟩
    · intro p st
      cases st <;> simp [clientGetterStep, hone]
    · intro p
      simp [clientGetterStep, hone]
    · intro p q st
      cases st <;> simp [clientGetterStep, hone]
  · intro h1 h2
    constructor
    · intro p
      simp [clientGetterStep, h1, h2]
    · intro p c
      simp [clientGetterStep, h1, h2]

/-- Witness for C8: a prod-only configuration and a dual configuration with a
cached client. -/
theorem generated_client_lazy_singleton_witness :
    (clientGetterStep ⟨"https://prod/graphql", "", ""⟩ true none).2.1 = "https://prod/graphql" ∧
    clientGetterStep ⟨"https://prod/graphql", "https://dev/graphql", "Debug.isDebugBuild"⟩
        true (some "https://dev/graphql") =
      (some "https://dev/graphql", "https://dev/graphql", 0) :=
  ⟨((generated_client_lazy_singleton ⟨"https://prod/graphql", "", ""⟩).1
      (Or.inl rfl)).2.1 true,
   ((generated_client_lazy_singleton
        ⟨"https://prod/graphql", "https://dev/graphql", "Debug.isDebugBuild"⟩).2
      (by decide) (by decide)).2 true "https://dev/graphql"⟩

/- ### C2 -/

/-- C2: a field selection whose selection set is exactly one fragment spread
produces only a property whose declared type is the fragment's own class name
(`List`-wrapped and with `s` appended to the property name when the field
resolves to a list) — no synthetic class; any other composite shape produces a
synthetic nested class named from the pascal-cased field name (trailing `s`
stripped when list-valued) plus the fixed `Result` suffix, with the field's own
property declared of that class type under the in-class name literally
`Result`. -/
theorem fieldDefinition_fragment_shortcut_and_result_class :
    (∀ (env : VisitorEnv) (fuel : Nat) (name fragName : String) (p : ObjectTypeDef)
        (fs : FieldDef) (rt : CSharpFieldType),
      p.fields.find? (fun f => f.name == name) = some fs →
      resolveFieldType env fs.type false = .ok rt →
      rt.listType = none →
      getFieldDefinition env (fuel + 1)
          (.mk name (some [Selection.fragmentSpread fragName])) (some p) =
        .ok (indentMultiline
          ("[JsonProperty(\"" ++ name ++ "\")]\npublic " ++ convertName fragName ++ " " ++
            convertName fragName ++ " \x7b get; set; \x7d\n") 1)) ∧
    (∀ (env : VisitorEnv) (fuel : Nat) (name fragName : String) (p : ObjectTypeDef)
        (fs : FieldDef) (rt : CSharpFieldType) (lt : ListTypeField),
      p.fields.find? (fun f => f.name == name) = some fs →
      resolveFieldType env fs.type false = .ok rt →
      rt.listType = some lt →
      getFieldDefinition env (fuel + 1)
          (.mk name (some [Selection.fragmentSpread fragName])) (some p) =
        .ok (indentMultiline
          ("[JsonProperty(\"" ++ name ++ "\")]\npublic " ++
            ("List<" ++ convertName fragName ++ ">") ++ " " ++
            (convertName fragName ++ "s") ++ " \x7b get; set; \x7d\n") 1)) ∧
    (∀ (env : VisitorEnv) (fuel : Nat) (name : String) (sels : List Selection)
        (p : ObjectTypeDef) (fs : FieldDef) (rt : CSharpFieldType) (fieldsStrs : List String),
      p.fields.find? (fun f => f.name == name) = some fs →
      resolveFieldType env fs.type false = .ok rt →
      (∀ fn, ¬sels = [Selection.fragmentSpread fn]) →
      selectionsToFields env fuel sels
          (env.schemaObjects.find? (fun d => d.name == rt.baseType.type)) = .ok fieldsStrs →
      getFieldDefinition env (fuel + 1) (.mk name (some sels)) (some p) =
        .ok (indentMultiline
          (declarationBlock "public" "class" (compositeClassName name rt) []
              (String.intercalate "\n" fieldsStrs) ++
            "\n[JsonProperty(\"" ++ name ++ "\")]\npublic " ++
            wrapFieldType ⟨⟨compositeClassName name rt, false, false⟩, rt.listType⟩
              rt.listType "List" ++
            " Result \x7b get; set; \x7d\n") 1)) := by
  refine ⟨?_, ?_, ?_⟩
  · intro env fuel name fragName p fs rt hfind hres hlist
    simp [getFieldDefinition, hfind, hres, soleSpreadFieldText, hlist]
  · intro env fuel name fragName p fs rt lt hfind hres hlist
    simp [getFieldDefinition, hfind, hres, soleSpreadFieldText, hlist]
  · intro env fuel name sels p fs rt fieldsStrs hfind hres hshape hsel
    simp only [getFieldDefinition, hfind, hres]
    rw [hsel]
    simp [compositeFieldText]

/-- Witness for C2 at the sample schema: the `hero`/`heroes` fields with a
sole `HeroFields` spread, and a composite `hero` selection of two leaves. -/
theorem fieldDefinition_fragment_shortcut_and_result_class_witness :
    getFieldDefinition sampleEnv 6
        (.mk "hero" (some [Selection.fragmentSpread "HeroFields"]))
        (some ⟨"Query", [⟨"hero", .named "Hero"⟩, ⟨"heroes", .list (.named "Hero")⟩,
          ⟨"name", .named "String"⟩]⟩) =
      .ok (indentMultiline
        ("[JsonProperty(\"" ++ "hero" ++ "\")]\npublic " ++ convertName "HeroFields" ++ " " ++
          convertName "HeroFields" ++ " \x7b get; set; \x7d\n") 1) ∧
    getFieldDefinition sampleEnv 6
        (.mk "heroes" (some [Selection.fragmentSpread "HeroFields"]))
        (some ⟨"Query", [⟨"hero", .named "Hero"⟩, ⟨"heroes", .list (.named "Hero")⟩,
          ⟨"name", .named "String"⟩]⟩) =
      .ok (indentMultiline
        ("[JsonProperty(\"" ++ "heroes" ++ "\")]\npublic " ++
          ("List<" ++ convertName "HeroFields" ++ ">") ++ " " ++
          (convertName "HeroFields" ++ "s") ++ " \x7b get; set; \x7d\n") 1) ∧
    getFieldDefinition sampleEnv 6
        (.mk "hero" (some [Selection.field (.mk "id" none), Selection.field (.mk "name" none)]))
        (some ⟨"Query", [⟨"hero", .named "Hero"⟩, ⟨"heroes", .list (.named "Hero")⟩,
          ⟨"name", .named "String"⟩]⟩) =
      .ok (indentMultiline
        (declarationBlock "public" "class"
            (compositeClassName "hero" ⟨⟨"Hero", false, false⟩, none⟩) []
            (String.intercalate "\n"
              [leafFieldText "id" ⟨⟨"string", true, false⟩, none⟩,
               leafFieldText "name" ⟨⟨"string", false, false⟩, none⟩]) ++
          "\n[JsonProperty(\"" ++ "hero" ++ "\")]\npublic " ++
          wrapFieldType ⟨⟨compositeClassName "hero" ⟨⟨"Hero", false, false⟩, none⟩, false,
            false⟩, none⟩ none "List" ++
          " Result \x7b get; set; \x7d\n") 1) :=
  ⟨fieldDefinition_fragment_shortcut_and_result_class.1 sampleEnv 5 "hero" "HeroFields"
      ⟨"Query", [⟨"hero", .named "Hero"⟩, ⟨"heroes", .list (.named "Hero")⟩,
        ⟨"name", .named "String"⟩]⟩ ⟨"hero", .named "Hero"⟩ ⟨⟨"Hero", false, false⟩, none⟩
      rfl rfl rfl,
   fieldDefinition_fragment_shortcut_and_result_class.2.1 sampleEnv 5 "heroes" "HeroFields"
      ⟨"Query", [⟨"hero", .named "Hero"⟩, ⟨"heroes", .list (.named "Hero")⟩,
        ⟨"name", .named "String"⟩]⟩ ⟨"heroes", .list (.named "Hero")⟩
      ⟨⟨"Hero", false, false⟩, some (.mk false none)⟩ (.mk false none) rfl rfl rfl,
   fieldDefinition_fragment_shortcut_and_result_class.2.2 sampleEnv 5 "hero"
      [Selection.field (.mk "id" none), Selection.field (.mk "name" none)]
      ⟨"Query", [⟨"hero", .named "Hero"⟩, ⟨"heroes", .list (.named "Hero")⟩,
        ⟨"name", .named "String"⟩]⟩ ⟨"hero", .named "Hero"⟩ ⟨⟨"Hero", false, false⟩, none⟩
      [leafFieldText "id" ⟨⟨"string", true, false⟩, none⟩,
       leafFieldText "name" ⟨⟨"string", false, false⟩, none⟩]
      rfl rfl (by intro fn h; injection h with h1 h2; injection h1) rfl⟩

/- ### C5 -/

/-- A successful exception-monad traversal preserves the list length. -/
theorem mapExcept_ok_length (f : α → Except JSErr β) (xs : List α) (l : List β)
    (h : mapExcept f xs = .ok l) : l.length = xs.length := by
  induction xs generalizing l with
  | nil =>
    simp only [mapExcept, Except.ok.injEq] at h
    subst h
    rfl
  | cons x xs ih =>
    unfold mapExcept at h
    split at h
    · exact absurd h (by simp)
    · next y hy =>
      split at h
      · exact absurd h (by simp)
      · next ys hys =>
        simp only [Except.ok.injEq] at h
        subst h
        simp [ih ys hys]

/-- In a successful exception-monad traversal, the `i`-th output is the image
of the `i`-th input. -/
theorem mapExcept_ok_get (f : α → Except JSErr β) (xs : List α) (l : List β)
    (h : mapExcept f xs = .ok l) (i : Nat) (h1 : i < xs.length) (h2 : i < l.length) :
    f (xs.get ⟨i, h1⟩) = .ok (l.get ⟨i, h2⟩) := by
  induction xs generalizing l i with
  | nil => exact absurd h1 (by simp)
  | cons x xs ih =>
    unfold mapExcept at h
    split at h
    · exact absurd h (by simp)
    · next y hy =>
      split at h
      · exact absurd h (by simp)
      · next ys hys =>
        simp only [Except.ok.injEq] at h
        subst h
        cases i with
        | zero => simpa using hy
        | succ j =>
          exact ih ys hys j (by simpa using h1) (by simpa using h2)

/-- C5: a variable-less operation emits no request class; with variables, the
property list has one entry per variable whose serialization tag is the
original variable name, the constructor parameter list has one entry per
variable in declaration order, the body assigns each parameter to its
pascal-cased property in order, and the emitted class is the single
constructor plus the properties. -/
theorem getRequestClass_shape (env : VisitorEnv) (node : OperationDefinitionNode) :
    (node.variableDefinitions = [] → getRequestClass env node = .ok "") ∧
    (∀ props, mapExcept (requestField env) node.variableDefinitions = .ok props →
      props.length = node.variableDefinitions.length ∧
      ∀ i (h1 : i < node.variableDefinitions.length) (h2 : i < props.length),
        ∃ t, resolveFieldType env (node.variableDefinitions.get ⟨i, h1⟩).type false = .ok t ∧
          props.get ⟨i, h2⟩ =
            indentMultiline
              ("[JsonProperty(\"" ++ (node.variableDefinitions.get ⟨i, h1⟩).name ++
                "\")]\npublic " ++ wrapFieldType t t.listType "List" ++ " " ++
                convertSafeName (pascalCase (node.variableDefinitions.get ⟨i, h1⟩).name) ++
                " \x7b get; set; \x7d\n") 1) ∧
    (∀ ps, mapExcept (constructorParam env) node.variableDefinitions = .ok ps →
      ps.length = node.variableDefinitions.length ∧
      requestConstructorParams env node.variableDefinitions = .ok (String.intercalate ", " ps) ∧
      ∀ i (h1 : i < node.variableDefinitions.length) (h2 : i < ps.length),
        ∃ t, resolveFieldType env (node.variableDefinitions.get ⟨i, h1⟩).type false = .ok t ∧
          ps.get ⟨i, h2⟩ = wrapFieldType t t.listType "List" ++ " " ++
            convertSafeName (node.variableDefinitions.get ⟨i, h1⟩).name) ∧
    (requestConstructorAssignments node.variableDefinitions =
      String.join (node.variableDefinitions.map (fun v =>
        "\n  " ++ convertSafeName (pascalCase v.name) ++ " = " ++ convertSafeName v.name ++
          ";"))) ∧
    (¬node.variableDefinitions = [] →
      ∀ fields params, requestFields env node.variableDefinitions = .ok fields →
        requestConstructorParams env node.variableDefinitions = .ok params →
        getRequestClass env node =
          .ok (declarationBlock "public" "class" (variablesClassName node) []
            (fields ++ "\n" ++
              ("public " ++ variablesClassName node ++ "(" ++ params ++ ") \x7b" ++
                requestConstructorAssignments node.variableDefinitions ++ "\n\x7d")))) := by
  refine ⟨?_, ?_, ?_, rfl, ?_⟩
  · intro h
    simp [getRequestClass, h]
  · intro props hm
    refine ⟨mapExcept_ok_length _ _ _ hm, ?_⟩
    intro i h1 h2
    have hf := mapExcept_ok_get _ _ _ hm i h1 h2
    unfold requestField at hf
    split at hf
    · exact absurd hf (by simp)
    · next t hres =>
      simp only [Except.ok.injEq] at hf
      exact ⟨t, hres, hf.symm⟩
  · intro ps hm
    refine ⟨mapExcept_ok_length _ _ _ hm, ?_, ?_⟩
    · simp [requestConstructorParams, hm]
    · intro i h1 h2
      have hf := mapExcept_ok_get _ _ _ hm i h1 h2
      unfold constructorParam at hf
      split at hf
      · exact absurd hf (by simp)
      · next t hres =>
        simp only [Except.ok.injEq] at hf
        exact ⟨t, hres, hf.symm⟩
  · intro h fields params hfields hparams
    unfold getRequestClass
    rw [if_neg (by simpa using h)]
    rw [hfields, hparams]

/-- Witness for C5: the variable-less operation case and a one-variable
request class on the sample schema. -/
theorem getRequestClass_shape_witness :
    getRequestClass sampleEnv ⟨some "GetHero", "query", [], []⟩ = .ok "" ∧
    (mapExcept (requestField sampleEnv) [⟨"id", .nonNull (.named "ID")⟩] = .ok
        [requestField0] →
      [requestField0].length = 1) ∧
    getRequestClass sampleEnv
        ⟨some "GetHero", "query", [⟨"id", .nonNull (.named "ID")⟩],
          [Selection.field (.mk "hero" none)]⟩ =
      .ok (declarationBlock "public" "class"
        (variablesClassName ⟨some "GetHero", "query", [⟨"id", .nonNull (.named "ID")⟩],
          [Selection.field (.mk "hero" none)]⟩) []
        (("\n" ++ String.intercalate "\n" [requestField0]) ++ "\n" ++
          ("public " ++ variablesClassName ⟨some "GetHero", "query",
              [⟨"id", .nonNull (.named "ID")⟩], [Selection.field (.mk "hero" none)]⟩ ++
            "(" ++ String.intercalate ", " ["string id"] ++ ") \x7b" ++
            requestConstructorAssignments [⟨"id", .nonNull (.named "ID")⟩] ++ "\n\x7d"))) := by
  refine ⟨(getRequestClass_shape sampleEnv ⟨some "GetHero", "query", [], []⟩).1 rfl, ?_, ?_⟩
  · intro hm
    exact ((getRequestClass_shape sampleEnv
      ⟨some "GetHero", "query", [⟨"id", .nonNull (.named "ID")⟩], []⟩).2.1
      [requestField0] hm).1
  · exact (getRequestClass_shape sampleEnv
      ⟨some "GetHero", "query", [⟨"id", .nonNull (.named "ID")⟩],
        [Selection.field (.mk "hero" none)]⟩).2.2.2.2 (by simp)
      ("\n" ++ String.intercalate "\n" [requestField0]) (String.intercalate ", " ["string id"])
      rfl rfl

/- ### C7 -/

/-- Unfolding equation: the composite-field selection map on an exhausted-fuel
cons cell. -/
theorem selectionsToFields_zero (env : VisitorEnv) (s : Selection) (rest : List Selection)
    (parent : Option ObjectTypeDef) :
    selectionsToFields env 0 (s :: rest) parent = .error .stackOverflow := rfl

/-- Unfolding equation: an inline fragment at the head of the composite-field
selection map throws at once. -/
theorem selectionsToFields_cons_inline (env : VisitorEnv) (fuel : Nat)
    (rest : List Selection) (parent : Option ObjectTypeDef) :
    selectionsToFields env (fuel + 1) (Selection.inlineFragment :: rest) parent =
      .error (.thrown unsupportedKindMsg) := rfl

/-- Unfolding equation: a field at the head of the composite-field selection
map. -/
theorem selectionsToFields_cons_field (env : VisitorEnv) (fuel : Nat) (f : FieldNode)
    (rest : List Selection) (parent : Option ObjectTypeDef) :
    selectionsToFields env (fuel + 1) (Selection.field f :: rest) parent =
      (match getFieldDefinition env fuel f parent with
       | .error e => .error e
       | .ok hd =>
         match selectionsToFields env fuel rest parent with
         | .error e => .error e
         | .ok tl => .ok (hd :: tl)) := rfl

/-- Unfolding equation: a fragment spread at the head of the composite-field
selection map. -/
theorem selectionsToFields_cons_spread (env : VisitorEnv) (fuel : Nat) (n : String)
    (rest : List Selection) (parent : Option ObjectTypeDef) :
    selectionsToFields env (fuel + 1) (Selection.fragmentSpread n :: rest) parent =
      (match getFragmentSpreadDefinition env fuel n parent with
       | .error e => .error e
       | .ok hd =>
         match selectionsToFields env fuel rest parent with
         | .error e => .error e
         | .ok tl => .ok (hd :: tl)) := rfl

/-- Unfolding equation: the fragment-inlining selection map on an
exhausted-fuel cons cell. -/
theorem fragmentSelectionsToFields_zero (env : VisitorEnv) (s : Selection)
    (rest : List Selection) (parent : Option ObjectTypeDef) :
    fragmentSelectionsToFields env 0 (s :: rest) parent = .error .stackOverflow := rfl

/-- Unfolding equation: an inline fragment at the head of the fragment-inlining
selection map throws at once. -/
theorem fragmentSelectionsToFields_cons_inline (env : VisitorEnv) (fuel : Nat)
    (rest : List Selection) (parent : Option ObjectTypeDef) :
    fragmentSelectionsToFields env (fuel + 1) (Selection.inlineFragment :: rest) parent =
      .error (.thrown unsupportedKindMsg) := rfl

/-- Unfolding equation: a field at the head of the fragment-inlining selection
map. -/
theorem fragmentSelectionsToFields_cons_field (env : VisitorEnv) (fuel : Nat) (f : FieldNode)
    (rest : List Selection) (parent : Option ObjectTypeDef) :
    fragmentSelectionsToFields env (fuel + 1) (Selection.field f :: rest) parent =
      (match getFieldDefinition env fuel f parent with
       | .error e => .error e
       | .ok hd =>
         match fragmentSelectionsToFields env fuel rest parent with
         | .error e => .error e
         | .ok tl => .ok (hd :: tl)) := rfl

/-- Unfolding equation: a nested fragment spread at the head of the
fragment-inlining selection map. -/
theorem fragmentSelectionsToFields_cons_spread (env : VisitorEnv) (fuel : Nat) (n : String)
    (rest : List Selection) (parent : Option ObjectTypeDef) :
    fragmentSelectionsToFields env (fuel + 1) (Selection.fragmentSpread n :: rest) parent =
      (match getFragmentSpreadDefinition env fuel n parent with
       | .error e => .error e
       | .ok hd =>
         match fragmentSelectionsToFields env fuel rest parent with
         | .error e => .error e
         | .ok tl => .ok (hd :: tl)) := rfl

/-- No selection list containing an inline fragment is successfully compiled by
the composite-field selection map. -/
theorem selectionsToFields_inline_never_ok (env : VisitorEnv) :
    ∀ (sels : List Selection), Selection.inlineFragment ∈ sels →
      ∀ fuel parent l, ¬selectionsToFields env fuel sels parent = .ok l := by
  intro sels
  induction sels with
  | nil => intro hmem; cases hmem
  | cons s rest ih =>
    intro hmem fuel parent l h
    cases fuel with
    | zero => rw [selectionsToFields_zero] at h; exact absurd h (by simp)
    | succ f =>
      rcases List.mem_cons.mp hmem with heq | hmem2
      · subst heq
        rw [selectionsToFields_cons_inline] at h
        exact absurd h (by simp)
      · cases s with
        | inlineFragment =>
          rw [selectionsToFields_cons_inline] at h
          exact absurd h (by simp)
        | field fld =>
          rw [selectionsToFields_cons_field] at h
          split at h
          · exact absurd h (by simp)
          · split at h
            · exact absurd h (by simp)
            · next tl htl => exact ih hmem2 f parent tl htl
        | fragmentSpread n =>
          rw [selectionsToFields_cons_spread] at h
          split at h
          · exact absurd h (by simp)
          · split at h
            · exact absurd h (by simp)
            · next tl htl => exact ih hmem2 f parent tl htl

/-- No selection list containing an inline fragment is successfully compiled by
the fragment-inlining selection map. -/
theorem fragmentSelectionsToFields_inline_never_ok (env : VisitorEnv) :
    ∀ (sels : List Selection), Selection.inlineFragment ∈ sels →
      ∀ fuel parent l, ¬fragmentSelectionsToFields env fuel sels parent = .ok l := by
  intro sels
  induction sels with
  | nil => intro hmem; cases hmem
  | cons s rest ih =>
    intro hmem fuel parent l h
    cases fuel with
    | zero => rw [fragmentSelectionsToFields_zero] at h; exact absurd h (by simp)
    | succ f =>
      rcases List.mem_cons.mp hmem with heq | hmem2
      · subst heq
        rw [fragmentSelectionsToFields_cons_inline] at h
        exact absurd h (by simp)
      · cases s with
        | inlineFragment =>
          rw [fragmentSelectionsToFields_cons_inline] at h
          exact absurd h (by simp)
        | field fld =>
          rw [fragmentSelectionsToFields_cons_field] at h
          split at h
          · exact absurd h (by simp)
          · split at h
            · exact absurd h (by simp)
            · next tl htl => exact ih hmem2 f parent tl htl
        | fragmentSpread n =>
          rw [fragmentSelectionsToFields_cons_spread] at h
          split at h
          · exact absurd h (by simp)
          · split at h
            · exact absurd h (by simp)
            · next tl htl => exact ih hmem2 f parent tl htl

/-- No top-level selection list containing an inline fragment is successfully
compiled by the response/fragment-class root map. -/
theorem operationRootBlocks_inline_never_ok (env : VisitorEnv) (fuel : Nat) :
    ∀ (sels : List Selection), Selection.inlineFragment ∈ sels →
      ∀ parent l, ¬operationRootBlocks env fuel sels parent = .ok l := by
  intro sels
  induction sels with
  | nil => intro hmem; cases hmem
  | cons s rest ih =>
    intro hmem parent l h
    rcases List.mem_cons.mp hmem with heq | hmem2
    · subst heq
      exact absurd h (by simp [operationRootBlocks])
    · cases s with
      | inlineFragment => exact absurd h (by simp [operationRootBlocks])
      | fragmentSpread n => exact absurd h (by simp [operationRootBlocks])
      | field fld =>
        unfold operationRootBlocks at h
        split at h
        · exact absurd h (by simp)
        · split at h
          · exact absurd h (by simp)
          · next tl htl => exact ih hmem2 parent tl htl

/-- C7: an inline type-conditioned fragment is rejected everywhere it can
occur — at the head of a composite field's sub-selections and of an inlined
fragment's selections it throws the `Unsupported kind` error naming the
`InlineFragment` kind at once; anywhere among those selections, compilation
can never succeed; and as a top-level selection of an operation or fragment it
throws the `Unknown kind` error naming the kind, with success likewise
impossible. -/
theorem inline_fragment_rejected :
    (∀ (env : VisitorEnv) (fuel : Nat) (rest : List Selection) (parent : Option ObjectTypeDef),
      selectionsToFields env (fuel + 1) (Selection.inlineFragment :: rest) parent =
        .error (.thrown unsupportedKindMsg)) ∧
    (∀ (env : VisitorEnv) (fuel : Nat) (rest : List Selection) (parent : Option ObjectTypeDef),
      fragmentSelectionsToFields env (fuel + 1) (Selection.inlineFragment :: rest) parent =
        .error (.thrown unsupportedKindMsg)) ∧
    (∀ (env : VisitorEnv) (fuel : Nat) (name : String) (sels : List Selection)
        (parent : Option ObjectTypeDef) (s : String),
      Selection.inlineFragment ∈ sels →
      ¬getFieldDefinition env fuel (.mk name (some sels)) parent = .ok s) ∧
    (∀ (env : VisitorEnv) (fuel : Nat) (n : String) (parent : Option ObjectTypeDef)
        (fr : FragmentDef) (s : String),
      env.fragments.find? (fun f => f.name == n) = some fr →
      Selection.inlineFragment ∈ fr.selections →
      ¬getFragmentSpreadDefinition env fuel n parent = .ok s) ∧
    (∀ (env : VisitorEnv) (fuel : Nat) (node : OperationDefinitionNode)
        (rest : List Selection),
      node.selectionSet = Selection.inlineFragment :: rest →
      getResponseClass env fuel node =
        .error (.thrown "Unknown kind; InlineFragment in OperationDefinitionNode")) ∧
    (∀ (env : VisitorEnv) (fuel : Nat) (node : OperationDefinitionNode) (s : String),
      Selection.inlineFragment ∈ node.selectionSet →
      ¬getResponseClass env fuel node = .ok s) ∧
    (∀ (env : VisitorEnv) (fuel : Nat) (fd : FragmentDef) (rest : List Selection),
      fd.selections = Selection.inlineFragment :: rest →
      getFragmentClass env fuel fd =
        .error (.thrown "Unknown kind; InlineFragment in OperationDefinitionNode")) ∧
    (∀ (env : VisitorEnv) (fuel : Nat) (fd : FragmentDef) (s : String),
      Selection.inlineFragment ∈ fd.selections →
      ¬getFragmentClass env fuel fd = .ok s) := by
  refine ⟨?_, ?_, ?_, ?_, ?_, ?_, ?_, ?_⟩
  · intro env fuel rest parent
    exact selectionsToFields_cons_inline env fuel rest parent
  · intro env fuel rest parent
    exact fragmentSelectionsToFields_cons_inline env fuel rest parent
  · intro env fuel name sels parent s hmem h
    cases fuel with
    | zero => exact absurd h (by simp [getFieldDefinition])
    | succ f =>
      simp only [getFieldDefinition] at h
      split at h
      · exact absurd h (by simp)
      · split at h
        · exact absurd h (by simp)
        · split at h
          · exact absurd h (by simp)
          · split at h
            · simp at hmem
            · split at h
              · exact absurd h (by simp)
              · next l hl =>
                exact selectionsToFields_inline_never_ok env sels hmem f _ l hl
  · intro env fuel n parent fr s hfind hmem h
    cases fuel with
    | zero => exact absurd h (by simp [getFragmentSpreadDefinition])
    | succ f =>
      simp only [getFragmentSpreadDefinition, hfind] at h
      split at h
      · exact absurd h (by simp)
      · next parts hp =>
        exact fragmentSelectionsToFields_inline_never_ok env fr.selections hmem f parent
          parts hp
  · intro env fuel node rest hsel
    unfold getResponseClass
    rw [hsel]
    rfl
  · intro env fuel node s hmem h
    unfold getResponseClass at h
    split at h
    · exact absurd h (by simp)
    · next parts hp =>
      exact operationRootBlocks_inline_never_ok env fuel node.selectionSet hmem _ parts hp
  · intro env fuel fd rest hsel
    unfold getFragmentClass
    rw [hsel]
    rfl
  · intro env fuel fd s hmem h
    unfold getFragmentClass at h
    split at h
    · exact absurd h (by simp)
    · next parts hp =>
      exact operationRootBlocks_inline_never_ok env fuel fd.selections hmem _ parts hp

/-- Witness for C7: the inline fragment at the head of a composite selection,
inside a composite field's sub-selections, and as a top-level operation
selection. -/
theorem inline_fragment_rejected_witness :
    selectionsToFields sampleEnv 3 [Selection.inlineFragment] none =
      .error (.thrown unsupportedKindMsg) ∧
    ¬getFieldDefinition sampleEnv 4
        (.mk "hero" (some [Selection.field (.mk "id" none), Selection.inlineFragment]))
        (some ⟨"Query", [⟨"hero", .named "Hero"⟩]⟩) = .ok "" ∧
    getResponseClass sampleEnv 3 ⟨some "Q", "query", [], [Selection.inlineFragment]⟩ =
      .error (.thrown "Unknown kind; InlineFragment in OperationDefinitionNode") :=
  ⟨inline_fragment_rejected.1 sampleEnv 2 [] none,
   inline_fragment_rejected.2.2.1 sampleEnv 4 "hero"
     [Selection.field (.mk "id" none), Selection.inlineFragment]
     (some ⟨"Query", [⟨"hero", .named "Hero"⟩]⟩) "" (by simp),
   inline_fragment_rejected.2.2.2.2.1 sampleEnv 3
     ⟨some "Q", "query", [], [Selection.inlineFragment]⟩ [] rfl⟩

/- ### C1 -/

set_option maxRecDepth 20000 in
/-- C1 counterexample: a generation run with the typesafe flag off still emits
the enum declaration of an enum type in the document set — the plugin's
generation path reaches `getEnumDefinition` (and `getRequestClass` /
`getResponseClass`) without consulting the flag. -/
theorem typesafeOff_still_emits_enum :
    hasSub (exceptOkD (plugin envC1 false 1 [] [] [colorEnum])) "public enum Color" = true :=
  rfl

/-- C1 (amended): the typesafe flag gates only the input-object declarations
and the visitor handlers' typesafe blocks.  With the flag off, the input
handler and the `EnumTypeDefinition` handler emit nothing and every input type
contributes an empty entry to the input buffer, while the plugin output over a
document set without input types is identical to the flag-on output — request,
response and enum declarations included. -/
theorem typesafeOff_gates_only_input_declarations (env : VisitorEnv) (ts : Bool)
    (hoff : ts = false) :
    (∀ node, InputObjectTypeDefinitionHandler ts env node = .ok "") ∧
    (∀ node, EnumTypeDefinitionHandler ts node = "") ∧
    (∀ inputs, pluginInputDefinitions ts env inputs =
      accumulateE (fun _ => (.ok "" : Except JSErr String)) inputs) ∧
    (∀ fuel ops enums, plugin env ts fuel ops [] enums = plugin env true fuel ops [] enums) := by
  subst hoff
  refine ⟨fun node => rfl, fun node => rfl, fun inputs => rfl, fun fuel ops enums => rfl⟩

/-- Witness for the amended C1 theorem at a concrete input type and a concrete
run. -/
theorem typesafeOff_gates_only_input_declarations_witness :
    InputObjectTypeDefinitionHandler false envC1 ⟨"Filter", [("q", .named "String")]⟩ =
      .ok "" ∧
    plugin envC1 false 1 [] [] [colorEnum] = plugin envC1 true 1 [] [] [colorEnum] :=
  ⟨(typesafeOff_gates_only_input_declarations envC1 false rfl).1
      ⟨"Filter", [("q", .named "String")]⟩,
   (typesafeOff_gates_only_input_declarations envC1 false rfl).2.2.2 1 [] [colorEnum]⟩
